import Mathlib

/-!
Verification development for the smartAPI client (src/smart_api.py).

The Python program is shallowly embedded: JSON-decoded values become the
inductive type `JVal`, Python dictionaries built by the program (whose keys
may be arbitrary hashable values) become association lists `PyDict`,
exceptions become an explicit `Except PyErr` result, and the external
collaborators (HTTP transport, the ollama text generator, console input)
become oracle streams that are consumed one item per call.  Every function
named after a Python function is a direct transcription of its source.
-/

namespace SmartAPI

/-- A JSON-decoded Python value (the shape produced by `response.json()`):
`None`, booleans, integers, strings, lists and string-keyed dicts. -/
inductive JVal where
  | null : JVal
  | bool : Bool → JVal
  | num : Int → JVal
  | str : String → JVal
  | arr : List JVal → JVal
  | obj : List (String × JVal) → JVal

/-- The Python exceptions the embedded code can raise. -/
inductive PyErr where
  | keyError : PyErr
  | typeError : PyErr
  | indexError : PyErr
  | attributeError : PyErr
  | stopIteration : PyErr
  | eofError : PyErr
  | exhausted : PyErr
  | valueError : String → PyErr
deriving DecidableEq, Repr

/-- A Python dict built by the program itself: keys can be any value
(association list, insertion ordered, like a CPython dict). -/
abbrev PyDict := List (JVal × JVal)

mutual
/-- Python `==` on JSON-shaped values (structural). -/
def pyEq : JVal → JVal → Bool
  | .null, .null => true
  | .bool a, .bool b => a == b
  | .num a, .num b => a == b
  | .str a, .str b => a == b
  | .arr a, .arr b => pyEqList a b
  | .obj a, .obj b => pyEqObj a b
  | _, _ => false

/-- Elementwise `pyEq` on lists. -/
def pyEqList : List JVal → List JVal → Bool
  | [], [] => true
  | x :: xs, y :: ys => pyEq x y && pyEqList xs ys
  | _, _ => false

/-- Elementwise `pyEq` on object entries. -/
def pyEqObj : List (String × JVal) → List (String × JVal) → Bool
  | [], [] => true
  | (k, v) :: xs, (l, w) :: ys => k == l && pyEq v w && pyEqObj xs ys
  | _, _ => false
end

/-- Python truthiness of a value. -/
def pyTruthy : JVal → Bool
  | .null => false
  | .bool b => b
  | .num n => n != 0
  | .str s => s ≠ ""
  | .arr xs => !xs.isEmpty
  | .obj kvs => !kvs.isEmpty

/-- `needle` occurs as a contiguous run at the front of `hay`. -/
def listHasPre : List Char → List Char → Bool
  | [], _ => true
  | _ :: _, [] => false
  | a :: as, b :: bs => a == b && listHasPre as bs

/-- `needle` occurs as a contiguous run somewhere in `hay`. -/
def listHasSub (needle : List Char) : List Char → Bool
  | [] => listHasPre needle []
  | b :: bs => listHasPre needle (b :: bs) || listHasSub needle bs

/-- Python `needle in hay` for strings (substring test). -/
def strContains (hay needle : String) : Bool :=
  listHasSub needle.toList hay.toList

/-- Python `s.lower()` (character-wise, as the source only compares ASCII
method tokens). -/
def pyLower (s : String) : String := String.mk (s.toList.map Char.toLower)

/-- Python `s.upper()`. -/
def pyUpper (s : String) : String := String.mk (s.toList.map Char.toUpper)

mutual
/-- Python `str(v)` for JSON-shaped values. -/
def pyStr : JVal → String
  | .null => "None"
  | .bool b => if b then "True" else "False"
  | .num n => toString n
  | .str s => s
  | .arr xs => "[" ++ pyStrElems xs ++ "]"
  | .obj kvs => "\x7b" ++ pyStrFields kvs ++ "\x7d"

/-- Python `repr(v)` as used for container elements (strings get quotes). -/
def pyStrQ : JVal → String
  | .str s => "\x27" ++ s ++ "\x27"
  | .null => "None"
  | .bool b => if b then "True" else "False"
  | .num n => toString n
  | .arr xs => "[" ++ pyStrElems xs ++ "]"
  | .obj kvs => "\x7b" ++ pyStrFields kvs ++ "\x7d"

/-- Comma-separated reprs of list elements. -/
def pyStrElems : List JVal → String
  | [] => ""
  | [x] => pyStrQ x
  | x :: y :: xs => pyStrQ x ++ ", " ++ pyStrElems (y :: xs)

/-- Comma-separated `key: value` reprs of object entries. -/
def pyStrFields : List (String × JVal) → String
  | [] => ""
  | [(k, v)] => "\x27" ++ k ++ "\x27: " ++ pyStrQ v
  | (k, v) :: e :: xs => "\x27" ++ k ++ "\x27: " ++ pyStrQ v ++ ", " ++ pyStrFields (e :: xs)
end

/-- Python list indexing with a possibly negative index. -/
def listIndex (xs : List JVal) (i : Int) : Except PyErr JVal :=
  let n : Int := xs.length
  let j := if i < 0 then i + n else i
  if 0 ≤ j then
    match xs.get? j.toNat with
    | some v => .ok v
    | none => .error .indexError
  else .error .indexError

/-- Python string indexing with a possibly negative index. -/
def strIndex (s : String) (i : Int) : Except PyErr JVal :=
  let cs := s.toList
  let n : Int := cs.length
  let j := if i < 0 then i + n else i
  if 0 ≤ j then
    match cs.get? j.toNat with
    | some c => .ok (.str c.toString)
    | none => .error .indexError
  else .error .indexError

/-- Only hashable values can be dict keys (lists and dicts are unhashable). -/
def hashableKey : JVal → Bool
  | .arr _ => false
  | .obj _ => false
  | _ => true

/-- Python subscript `v[idx]` on a JSON-shaped value. -/
def getItemV (v idx : JVal) : Except PyErr JVal :=
  match v with
  | .obj kvs =>
    match idx with
    | .str s =>
      match kvs.find? (fun kv => kv.1 == s) with
      | some kv => .ok kv.2
      | none => .error .keyError
    | .arr _ => .error .typeError
    | .obj _ => .error .typeError
    | _ => .error .keyError
  | .arr xs =>
    match idx with
    | .num i => listIndex xs i
    | .bool b => listIndex xs (if b then 1 else 0)
    | _ => .error .typeError
  | .str s =>
    match idx with
    | .num i => strIndex s i
    | .bool b => strIndex s (if b then 1 else 0)
    | _ => .error .typeError
  | _ => .error .typeError

/-- Python subscript with a string-literal key. -/
def getItem (v : JVal) (k : String) : Except PyErr JVal :=
  getItemV v (.str k)

/-- Python `d.get(k, default)` (AttributeError on a non-dict). -/
def dictGet (v : JVal) (k : String) (dflt : JVal) : Except PyErr JVal :=
  match v with
  | .obj kvs =>
    match kvs.find? (fun kv => kv.1 == k) with
    | some kv => .ok kv.2
    | none => .ok dflt
  | _ => .error .attributeError

/-- Python `list(d.keys())` (AttributeError on a non-dict). -/
def dictKeys (v : JVal) : Except PyErr (List String) :=
  match v with
  | .obj kvs => .ok (kvs.map (fun kv => kv.1))
  | _ => .error .attributeError

/-- Python `next(iter(v))`: first key of a dict, first element of a list,
first character of a string; StopIteration when empty. -/
def firstIter (v : JVal) : Except PyErr JVal :=
  match v with
  | .obj [] => .error .stopIteration
  | .obj (kv :: _) => .ok (.str kv.1)
  | .arr [] => .error .stopIteration
  | .arr (x :: _) => .ok x
  | .str s =>
    match s.toList with
    | [] => .error .stopIteration
    | c :: _ => .ok (.str c.toString)
  | _ => .error .typeError

/-- Python `for x in v`: the sequence of iterated items (keys for dicts,
characters for strings); TypeError on a non-iterable. -/
def pyIterate (v : JVal) : Except PyErr (List JVal) :=
  match v with
  | .obj kvs => .ok (kvs.map (fun kv => JVal.str kv.1))
  | .arr xs => .ok xs
  | .str s => .ok (s.toList.map (fun c => JVal.str c.toString))
  | _ => .error .typeError

/-- Python `x in v`: key test for dicts, membership for lists, substring
for strings; TypeError otherwise (and for unhashable keys on dicts). -/
def pyContains (v x : JVal) : Except PyErr Bool :=
  match v with
  | .obj kvs =>
    match x with
    | .str s => .ok (kvs.any (fun kv => kv.1 == s))
    | .arr _ => .error .typeError
    | .obj _ => .error .typeError
    | _ => .ok false
  | .arr xs => .ok (xs.any (fun y => pyEq x y))
  | .str s =>
    match x with
    | .str t => .ok (strContains s t)
    | _ => .error .typeError
  | _ => .error .typeError

/-- Update-or-append on an association list, preserving insertion order
(the CPython dict assignment semantics). -/
def dictUpd : PyDict → JVal → JVal → PyDict
  | [], k, v => [(k, v)]
  | (k', v') :: rest, k, v =>
    if pyEq k' k then (k', v) :: rest else (k', v') :: dictUpd rest k v

/-- Python `d[k] = v` on a program-built dict (TypeError on unhashable keys). -/
def pyDictSet (d : PyDict) (k v : JVal) : Except PyErr PyDict :=
  if hashableKey k then .ok (dictUpd d k v) else .error .typeError

/-- Lookup in a program-built dict. -/
def dictLookup : PyDict → JVal → Option JVal
  | [], _ => none
  | (k', v') :: rest, k => if pyEq k' k then some v' else dictLookup rest k

/-! ## EndpointResolver: `extract_required_fields` / `extract_required_headers` -/

/-- The HTTP-method tokens the resolver recognizes (source line 17). -/
def httpMethodTokens : List String :=
  ["get", "post", "put", "delete", "patch", "options", "head"]

/-- Result triple of `extract_required_fields`:
`(field_details, content_type, method)`. -/
def ExtractRes := PyDict × Option JVal × Option String

/-- Method determination when no method is passed (source lines 14-20 and
73-79): enumerate the keys under the path and keep the first recognized
HTTP method, `none` when no recognized method remains. -/
def determineMethod (api_spec : JVal) (endpoint : String) : Except PyErr (Option String) :=
  match getItem api_spec "paths" with
  | .error e => .error e
  | .ok p =>
    match getItem p endpoint with
    | .error e => .error e
    | .ok pathItem =>
      match dictKeys pathItem with
      | .error e => .error e
      | .ok available =>
        match available.filter (fun m => httpMethodTokens.contains (pyLower m)) with
        | [] => .ok none
        | m :: _ => .ok (some m)

/-- The dict comprehension of source line 30:
`{field: properties[field]["type"] for field in required_fields}`. -/
def buildFieldDetails (properties : JVal) : List JVal → PyDict → Except PyErr PyDict
  | [], acc => .ok acc
  | f :: rest, acc =>
    match getItemV properties f with
    | .error e => .error e
    | .ok pv =>
      match getItem pv "type" with
      | .error e => .error e
      | .ok ty =>
        match pyDictSet acc f ty with
        | .error e => .error e
        | .ok acc' => buildFieldDetails properties rest acc'

/-- Body of the `try` block of `extract_required_fields` once the method is
known (source lines 22-34). -/
def erfTry (api_spec : JVal) (endpoint m : String) : Except PyErr ExtractRes :=
  match getItem api_spec "paths" with
  | .error e => .error e
  | .ok p =>
    match getItem p endpoint with
    | .error e => .error e
    | .ok pathItem =>
      match getItem pathItem m with
      | .error e => .error e
      | .ok op =>
        match pyContains op (.str "requestBody") with
        | .error e => .error e
        | .ok false => .ok ([], none, some m)
        | .ok true =>
          match getItem op "requestBody" with
          | .error e => .error e
          | .ok rb =>
            match getItem rb "content" with
            | .error e => .error e
            | .ok content_types =>
              match firstIter content_types with
              | .error e => .error e
              | .ok ct =>
                match getItemV content_types ct with
                | .error e => .error e
                | .ok ctEntry =>
                  match getItem ctEntry "schema" with
                  | .error e => .error e
                  | .ok schema =>
                    match dictGet schema "required" (.arr []) with
                    | .error e => .error e
                    | .ok required =>
                      match dictGet schema "properties" (.obj []) with
                      | .error e => .error e
                      | .ok properties =>
                        match pyIterate required with
                        | .error e => .error e
                        | .ok reqItems =>
                          match buildFieldDetails properties reqItems [] with
                          | .error e => .error e
                          | .ok fd => .ok (fd, some ct, some m)

/-- The `except KeyError` handler: a KeyError becomes the degraded value,
every other outcome passes through. -/
def catchKeyError {α : Type} (x : Except PyErr α) (d : α) : Except PyErr α :=
  match x with
  | .ok v => .ok v
  | .error e => if e = .keyError then .ok d else .error e

/-- `extract_required_fields` (source lines 10-36).  The surrounding
`try/except KeyError` returns `({}, None, method)` with the current value
of the local `method` at the raise point. -/
def extract_required_fields (api_spec : JVal) (endpoint : String)
    (methodHint : Option String) : Except PyErr ExtractRes :=
  match methodHint with
  | some m => catchKeyError (erfTry api_spec endpoint m) ([], none, some m)
  | none =>
    match determineMethod api_spec endpoint with
    | .error e => if e = .keyError then .ok ([], none, none) else .error e
    | .ok none => .ok ([], none, none)
    | .ok (some m) => catchKeyError (erfTry api_spec endpoint m) ([], none, some m)

/-- The dict comprehension of source lines 82-86, preserving the
left-to-right evaluation order of `param["in"]`, `param.get("required")`,
`param["name"]`, `param.get("schema", {}).get("type", "string")`. -/
def erhLoop : List JVal → PyDict → Except PyErr PyDict
  | [], acc => .ok acc
  | param :: rest, acc =>
    match getItem param "in" with
    | .error e => .error e
    | .ok inloc =>
      if pyEq inloc (.str "header") then
        match dictGet param "required" (.bool false) with
        | .error e => .error e
        | .ok reqd =>
          if pyTruthy reqd then
            match getItem param "name" with
            | .error e => .error e
            | .ok name =>
              match dictGet param "schema" (.obj []) with
              | .error e => .error e
              | .ok schema =>
                match dictGet schema "type" (.str "string") with
                | .error e => .error e
                | .ok ty =>
                  match pyDictSet acc name ty with
                  | .error e => .error e
                  | .ok acc' => erhLoop rest acc'
          else erhLoop rest acc
      else erhLoop rest acc

/-- Body of the `try` block of `extract_required_headers` once the method
is known (source lines 81-87). -/
def erhTry (api_spec : JVal) (endpoint m : String) : Except PyErr PyDict :=
  match getItem api_spec "paths" with
  | .error e => .error e
  | .ok p =>
    match getItem p endpoint with
    | .error e => .error e
    | .ok pathItem =>
      match getItem pathItem m with
      | .error e => .error e
      | .ok op =>
        match dictGet op "parameters" (.arr []) with
        | .error e => .error e
        | .ok params =>
          match pyIterate params with
          | .error e => .error e
          | .ok items => erhLoop items []

/-- `extract_required_headers` (source lines 69-89). -/
def extract_required_headers (api_spec : JVal) (endpoint : String)
    (methodHint : Option String) : Except PyErr PyDict :=
  match methodHint with
  | some m => catchKeyError (erhTry api_spec endpoint m) []
  | none =>
    match determineMethod api_spec endpoint with
    | .error e => if e = .keyError then .ok [] else .error e
    | .ok none => .ok []
    | .ok (some m) => catchKeyError (erhTry api_spec endpoint m) []

/-! ## External collaborators as oracle streams -/

/-- The oracle streams for the external collaborators: console input
(`input()`), the ollama text generator (`ollama.generate`, whose full
response object or raised error is the stream element), and the HTTP
transport (the decoded `response.json()` of each issued request, in
order).  Each call consumes the head of its stream. -/
structure Streams where
  stdin : List String
  gen : List (Except PyErr JVal)
  net : List JVal

/-- `input()`: consume one console line (EOFError at end of input). -/
def takeInput (s : Streams) : Except PyErr (String × Streams) :=
  match s.stdin with
  | [] => .error .eofError
  | x :: rest => .ok (x, { s with stdin := rest })

/-- `ollama.generate(...)`: consume one generator outcome. -/
def takeGen (s : Streams) : Except PyErr JVal × Streams :=
  match s.gen with
  | [] => (.error .exhausted, s)
  | r :: rest => (r, { s with gen := rest })

/-- `response.json()` of the next HTTP call. -/
def takeNet (s : Streams) : Except PyErr (JVal × Streams) :=
  match s.net with
  | [] => .error .exhausted
  | x :: rest => .ok (x, { s with net := rest })

/-! ## FieldCollector: `generate_user_questions` / `collect_user_inputs` -/

/-- `generate_user_questions` (source lines 40-56): one generator call,
then `response["response"]`.  The prompt built from `field_details` is
passed to the oracle, which is consumed positionally. -/
def generate_user_questions (_field_details : PyDict) (s : Streams) :
    Except PyErr (JVal × Streams) :=
  match takeGen s with
  | (.error e, _) => .error e
  | (.ok resp, s') =>
    match getItem resp "response" with
    | .error e => .error e
    | .ok q => .ok (q, s')

/-- The prompt-per-field loop of source lines 64-65: one `input()` per
field, in order, the captured text stored verbatim. -/
def collectLoop : PyDict → PyDict → Streams → Except PyErr (PyDict × Streams)
  | [], acc, s => .ok (acc, s)
  | (f, _ty) :: rest, acc, s =>
    match takeInput s with
    | .error e => .error e
    | .ok (v, s') =>
      match pyDictSet acc f (.str v) with
      | .error e => .error e
      | .ok acc' => collectLoop rest acc' s'

/-- `collect_user_inputs` (source lines 58-67). -/
def collect_user_inputs (field_details : PyDict) (s : Streams) :
    Except PyErr (PyDict × Streams) :=
  match generate_user_questions field_details s with
  | .error e => .error e
  | .ok (_questions, s') => collectLoop field_details [] s'

/-! ## RequestDispatcher: `call_api` -/

/-- One HTTP request as handed to the transport: which `requests.*` call
was made, with url, serialized payload and the headers object used. -/
inductive Request where
  | get : String → Option PyDict → PyDict → Request
  | postData : String → String → PyDict → Request
  | postJson : String → Option PyDict → PyDict → Request
  | putJson : String → Option PyDict → PyDict → Request
  | deleteJson : String → Option PyDict → PyDict → Request
  | patchJson : String → Option PyDict → PyDict → Request
  | raw : String → String → PyDict → Request

/-- The headers object a request was sent with. -/
def Request.headersOf : Request → PyDict
  | .get _ _ h => h
  | .postData _ _ h => h
  | .postJson _ _ h => h
  | .putJson _ _ h => h
  | .deleteJson _ _ h => h
  | .patchJson _ _ h => h
  | .raw _ _ h => h

/-- Whether the request carried a form-serialized (`key=value&...`) body. -/
def Request.isFormData : Request → Bool
  | .postData _ _ _ => true
  | _ => false

/-- Truthiness of the `payload` argument (a dict or `None`). -/
def payloadTruthy : Option PyDict → Bool
  | none => false
  | some p => !p.isEmpty

/-- Truthiness of the `content_type` argument (a value or `None`). -/
def ctTruthy : Option JVal → Bool
  | none => false
  | some v => pyTruthy v

/-- `content_type == "application/x-www-form-urlencoded"` (source line 106). -/
def ctIsForm : Option JVal → Bool
  | none => false
  | some v => pyEq v (.str "application/x-www-form-urlencoded")

/-- The form serialization of source line 107:
`"&".join([f"{key}={value}" for key, value in payload.items()])` —
no percent-encoding, insertion order preserved. -/
def formJoin (p : PyDict) : String :=
  String.intercalate "&" (p.map (fun kv => pyStr kv.1 ++ "=" ++ pyStr kv.2))

/-- The method dispatch of source lines 101-118, with `m` the lowercased
method and `headers1` the (already mutated) headers object. -/
def callDispatch (api_url : String) (payload : Option PyDict) (content_type : Option JVal)
    (m : String) (headers1 : PyDict) : PyDict × Except PyErr Request :=
  if m = "get" then (headers1, .ok (.get api_url payload headers1))
  else if m = "post" then
    if ctIsForm content_type then
      match payload with
      | none => (headers1, .error .attributeError)
      | some p => (headers1, .ok (.postData api_url (formJoin p) headers1))
    else (headers1, .ok (.postJson api_url payload headers1))
  else if m = "put" then (headers1, .ok (.putJson api_url payload headers1))
  else if m = "delete" then (headers1, .ok (.deleteJson api_url payload headers1))
  else if m = "patch" then (headers1, .ok (.patchJson api_url payload headers1))
  else (headers1, .error (.valueError ("Unsupported HTTP method: " ++ m)))

/-- `call_api` (source lines 91-120).  Returns the headers object after
the in-place `headers["Content-Type"] = content_type` mutation (source
lines 96-98; the caller's dict aliases this value) together with the
issued request, or the raised error.  The decoded response itself comes
from the network oracle and is handled by the caller. -/
def call_api (api_url : String) (payload : Option PyDict) (headers : Option PyDict)
    (content_type : Option JVal) (method : String) : PyDict × Except PyErr Request :=
  let headers0 := headers.getD []
  let headers1 :=
    if payloadTruthy payload && ctTruthy content_type then
      dictUpd headers0 (.str "Content-Type") (content_type.getD .null)
    else headers0
  callDispatch api_url payload content_type (pyLower method) headers1

/-! ## FailureClassifier: `extract_missing_fields_from_response` -/

/-- Outcome of `eval(ollama.generate(...)["response"])` in the classifier
(source lines 141-147), abstracting the external generator and the Python
`eval`: the text evaluated to a value, `eval` raised a SyntaxError or
NameError (the two caught exceptions), or some step raised anything else
(generator failure, missing `"response"` key, other `eval` errors). -/
inductive EvalOutcome where
  | evalOk : JVal → EvalOutcome
  | parseSyntaxOrName : EvalOutcome
  | raised : PyErr → EvalOutcome

/-- The manual fallback loop of source lines 152-156: for each entry of
`detail` whose `type` contains `"missing"`, take `entry.get("loc", [])[-1]`
and keep it when truthy. -/
def manualExtractLoop : List JVal → List JVal → Except PyErr (List JVal)
  | [], acc => .ok acc
  | err :: rest, acc =>
    match dictGet err "type" (.str "") with
    | .error e => .error e
    | .ok ty =>
      match pyContains ty (.str "missing") with
      | .error e => .error e
      | .ok false => manualExtractLoop rest acc
      | .ok true =>
        match dictGet err "loc" (.arr []) with
        | .error e => .error e
        | .ok locv =>
          match getItemV locv (.num (-1)) with
          | .error e => .error e
          | .ok field =>
            if pyTruthy field then manualExtractLoop rest (acc ++ [field])
            else manualExtractLoop rest acc

/-- The manual fallback path of the classifier (source lines 151-157). -/
def manualExtract (api_response : JVal) : Except PyErr JVal :=
  match dictGet api_response "detail" (.arr []) with
  | .error e => .error e
  | .ok detail =>
    match pyIterate detail with
    | .error e => .error e
    | .ok items =>
      match manualExtractLoop items [] with
      | .error e => .error e
      | .ok fs => .ok (.arr fs)

/-- `extract_missing_fields_from_response` (source lines 131-157): the
generator text is evaluated first and returned whatever it is; only a
SyntaxError/NameError from that evaluation falls back to the manual walk
of the `detail` list; any other error propagates. -/
def extract_missing_fields_from_response (api_response : JVal) (gen : EvalOutcome) :
    Except PyErr JVal :=
  match gen with
  | .evalOk v => .ok v
  | .raised e => .error e
  | .parseSyntaxOrName => manualExtract api_response

/-! ## Job-id extraction: `extract_job_ids` -/

/-- The per-job loop of source lines 164-172; a TypeError or KeyError from
`"id" in job` or `job["id"]` is caught by the surrounding handler, which
returns the ids collected so far (the `except ... pass` of lines 173-174).
Those two are the only exceptions these subscript operations can raise. -/
def jobLoop : List JVal → List JVal → List JVal
  | [], acc => acc
  | job :: rest, acc =>
    match pyContains job (.str "id") with
    | .error _ => acc
    | .ok false => jobLoop rest acc
    | .ok true =>
      match getItem job "id" with
      | .error _ => acc
      | .ok v => jobLoop rest (acc ++ [v])

/-- `extract_job_ids` (source lines 159-176). -/
def extract_job_ids (jobs_response : JVal) : Except PyErr (List JVal) :=
  match jobs_response with
  | .arr jobs => .ok (jobLoop jobs [])
  | .obj kvs =>
    if kvs.any (fun kv => kv.1 == "jobs") then
      match getItem (.obj kvs) "jobs" with
      | .error _ => .ok []
      | .ok jv =>
        match pyIterate jv with
        | .error _ => .ok []
        | .ok items => .ok (jobLoop items [])
    else .ok []
  | _ => .ok []

/-! ## WorkflowOrchestrator: `main` -/

/-- `interpret_response_with_llm` (source lines 122-129): one generator
call, then `response["response"]`. -/
def interpret_response_with_llm (_response_data : JVal) (s : Streams) :
    Except PyErr (JVal × Streams) :=
  match takeGen s with
  | (.error e, _) => .error e
  | (.ok resp, s') =>
    match getItem resp "response" with
    | .error e => .error e
    | .ok t => .ok (t, s')

/-- The short-circuiting
`any("missing" in error["type"] for error in api_response["detail"])`
of source line 207. -/
def anyMissingGo : List JVal → Except PyErr Bool
  | [] => .ok false
  | err :: rest =>
    match getItem err "type" with
    | .error e => .error e
    | .ok ty =>
      match pyContains ty (.str "missing") with
      | .error e => .error e
      | .ok true => .ok true
      | .ok false => anyMissingGo rest

/-- The missing-field pre-check of source line 207:
`"detail" in api_response and any(...)`. -/
def mainMissingCheck (api_response : JVal) : Except PyErr Bool :=
  match pyContains api_response (.str "detail") with
  | .error e => .error e
  | .ok false => .ok false
  | .ok true =>
    match getItem api_response "detail" with
    | .error e => .error e
    | .ok detail =>
      match pyIterate detail with
      | .error e => .error e
      | .ok items => anyMissingGo items

/-- The header-collection loop of source lines 200-201: one `input()` per
required header. -/
def headersLoop : PyDict → PyDict → Streams → Except PyErr (PyDict × Streams)
  | [], acc, s => .ok (acc, s)
  | (h, _ty) :: rest, acc, s =>
    match takeInput s with
    | .error e => .error e
    | .ok (v, s') =>
      match pyDictSet acc h (.str v) with
      | .error e => .error e
      | .ok acc' => headersLoop rest acc' s'

/-- The repair loop body of source lines 213-214: one `input()` per missing
field, merged into the existing payload (overwriting). -/
def repairInputs : List JVal → PyDict → Streams → Except PyErr (PyDict × Streams)
  | [], payload, s => .ok (payload, s)
  | f :: rest, payload, s =>
    match takeInput s with
    | .error e => .error e
    | .ok (v, s') =>
      match pyDictSet payload f (.str v) with
      | .error e => .error e
      | .ok p' => repairInputs rest p' s'

/-- Outcome of the per-endpoint login phase: the HTTP requests issued, and
on normal completion the final response with the payload and the (shared,
mutated) headers dict. -/
structure PhaseOut where
  reqs : List Request
  result : Except PyErr (JVal × PyDict × PyDict)

/-- Source lines 178-221: resolve the login endpoint, collect inputs and
headers, call, and run the bounded repair loop.  The second response, even
when it again reports missing fields, is not re-checked: it becomes the
final result. -/
def mainLoginPhase (api_spec : JVal) (s : Streams) (ev : EvalOutcome) : PhaseOut :=
  match extract_required_fields api_spec "/api/login" none with
  | .error e => ⟨[], .error e⟩
  | .ok (required_fields, content_type, method) =>
    match extract_required_headers api_spec "/api/login" method with
    | .error e => ⟨[], .error e⟩
    | .ok required_headers =>
      -- print(f"HTTP Method: {method.upper()}") raises on a missing method
      match method with
      | none => ⟨[], .error .attributeError⟩
      | some methodStr =>
        match
          (if required_fields.isEmpty then .ok (([] : PyDict), s)
           else collect_user_inputs required_fields s) with
        | .error e => ⟨[], .error e⟩
        | .ok (user_payload, s1) =>
          match headersLoop required_headers [] s1 with
          | .error e => ⟨[], .error e⟩
          | .ok (headers, s2) =>
            match call_api "http://localhost:8000/api/login" (some user_payload)
                (some headers) content_type methodStr with
            | (_, .error e) => ⟨[], .error e⟩
            | (headers1, .ok req1) =>
              match takeNet s2 with
              | .error e => ⟨[req1], .error e⟩
              | .ok (resp1, s3) =>
                match mainMissingCheck resp1 with
                | .error e => ⟨[req1], .error e⟩
                | .ok false => ⟨[req1], .ok (resp1, user_payload, headers1)⟩
                | .ok true =>
                  match extract_missing_fields_from_response resp1 ev with
                  | .error e => ⟨[req1], .error e⟩
                  | .ok missing =>
                    match pyIterate missing with
                    | .error e => ⟨[req1], .error e⟩
                    | .ok mfields =>
                      match repairInputs mfields user_payload s3 with
                      | .error e => ⟨[req1], .error e⟩
                      | .ok (payload2, s4) =>
                        match call_api "http://localhost:8000/api/login"
                            (some payload2) (some headers1) content_type methodStr with
                        | (_, .error e) => ⟨[req1], .error e⟩
                        | (headers2, .ok req2) =>
                          match takeNet s4 with
                          | .error e => ⟨[req1, req2], .error e⟩
                          | .ok (resp2, _s5) =>
                            ⟨[req1, req2], .ok (resp2, payload2, headers2)⟩

/-- Outcome of the post-login workflow: the HTTP requests issued after the
login response was obtained, and the jobs listing on normal completion. -/
structure PhaseOut2 where
  reqs : List Request
  result : Except PyErr JVal

/-- `jobs_method = jobs_method or "get"` (source line 237). -/
def orGet : Option String → String
  | none => "get"
  | some s => if s = "" then "get" else s

/-- Source lines 257-310: select a job, resolve (or default) the
status-update endpoint, collect the payload and call it. -/
def jobUpdateStage (api_spec : JVal) (bearer : JVal) (jobsReq : Request)
    (jobs_data : JVal) (ids : List JVal) (s : Streams) : PhaseOut2 :=
  if ids.isEmpty then
    -- "No job IDs found"; then interpret the jobs response
    match interpret_response_with_llm jobs_data s with
    | .error e => ⟨[jobsReq], .error e⟩
    | .ok _ => ⟨[jobsReq], .ok jobs_data⟩
  else
    match takeInput s with
    | .error e => ⟨[jobsReq], .error e⟩
    | .ok (selected, s1) =>
      match extract_required_fields api_spec ("/jobs/" ++ selected ++ "/status") none with
      | .error e => ⟨[jobsReq], .error e⟩
      | .ok (sf0, sct0, sm0) =>
        let sf := if sf0.isEmpty then [((JVal.str "status"), (JVal.str "string"))] else sf0
        let sct := if sf0.isEmpty then some (JVal.str "application/json") else sct0
        let sm := if sf0.isEmpty then some "put" else sm0
        -- print(f"HTTP Method: {status_method.upper()}") raises on None
        match sm with
        | none => ⟨[jobsReq], .error .attributeError⟩
        | some statusMethod =>
          match collect_user_inputs sf s1 with
          | .error e => ⟨[jobsReq], .error e⟩
          | .ok (status_payload, s2) =>
            let status_headers : PyDict :=
              [((JVal.str "accept"), (JVal.str "application/json")),
               ((JVal.str "Authorization"), (JVal.str ("Bearer " ++ pyStr bearer))),
               ((JVal.str "Content-Type"), (sct.getD JVal.null))]
            match call_api ("http://localhost:8000/jobs/" ++ selected ++ "/status")
                (some status_payload) (some status_headers) sct statusMethod with
            | (_, .error e) => ⟨[jobsReq], .error e⟩
            | (_, .ok statusReq) =>
              match takeNet s2 with
              | .error e => ⟨[jobsReq, statusReq], .error e⟩
              | .ok (_status_resp, s3) =>
                match interpret_response_with_llm _status_resp s3 with
                | .error e => ⟨[jobsReq, statusReq], .error e⟩
                | .ok (_, s4) =>
                  match interpret_response_with_llm jobs_data s4 with
                  | .error e => ⟨[jobsReq, statusReq], .error e⟩
                  | .ok _ => ⟨[jobsReq, statusReq], .ok jobs_data⟩

/-- Source lines 222-312: interpret the login response, and when it holds
an `access_token`, run the jobs listing and job-status-update stages with
the bearer token; otherwise stop without issuing any further request. -/
def mainAfterLogin (api_spec api_response : JVal) (s : Streams) : PhaseOut2 :=
  match interpret_response_with_llm api_response s with
  | .error e => ⟨[], .error e⟩
  | .ok (_interpreted, s0) =>
    match pyContains api_response (.str "access_token") with
    | .error e => ⟨[], .error e⟩
    | .ok false => ⟨[], .ok .null⟩  -- "No access token found in the login response."
    | .ok true =>
      match getItem api_response "access_token" with
      | .error e => ⟨[], .error e⟩
      | .ok bearer =>
        match extract_required_fields api_spec "/jobs" none with
        | .error e => ⟨[], .error e⟩
        | .ok (_, _, jm) =>
          let jobs_method := orGet jm
          let jobs_headers : PyDict :=
            [((JVal.str "accept"), (JVal.str "application/json")),
             ((JVal.str "Authorization"), (JVal.str ("Bearer " ++ pyStr bearer)))]
          let jobsReq := Request.raw (pyUpper jobs_method) "http://localhost:8000/jobs"
            jobs_headers
          match takeNet s0 with
          | .error e => ⟨[jobsReq], .error e⟩
          | .ok (jobs_data, s1) =>
            match extract_job_ids jobs_data with
            | .error e => ⟨[jobsReq], .error e⟩
            | .ok ids => jobUpdateStage api_spec bearer jobsReq jobs_data ids s1

/-! ## Spec-side reference definition (for the refinement comparison) -/

/-- Modelled from the spec, section 4.4, solely for comparison with the
code: the claimed classifier ordering, with the structured walk of the
`detail` list as the primary path and the text generator invoked only
secondarily, a non-list or unparsable generator output degrading to the
empty set. -/
def classifySpecOrdered (api_response : JVal) (gen : EvalOutcome) : Except PyErr JVal :=
  match manualExtract api_response with
  | .ok (.arr (f :: fs)) => .ok (.arr (f :: fs))
  | _ =>
    match gen with
    | .evalOk (.arr xs) => .ok (.arr xs)
    | _ => .ok (.arr [])

/-! ## Derived predicates used by the theorems -/

/-- The computation finished without an exception. -/
def exceptIsOk {α : Type} : Except PyErr α → Bool
  | .ok _ => true
  | .error _ => false

/-- The computation raised KeyError. -/
def isKeyErrorResult {α : Type} : Except PyErr α → Bool
  | .error .keyError => true
  | _ => false

/-- The five-method set the claim about resolved methods names. -/
def claimedMethods : List String := ["get", "post", "put", "delete", "patch"]

/-- A response shape that is neither a bare list nor a `jobs` wrapper. -/
def notJobsShaped : JVal → Bool
  | .arr _ => false
  | .obj kvs => !(kvs.any (fun kv => kv.1 == "jobs"))
  | _ => true

/-- The login response carries an `access_token` field. -/
def hasAccessToken : JVal → Bool
  | .obj kvs => kvs.any (fun kv => kv.1 == "access_token")
  | _ => false

/-- The request carries `Authorization: Bearer <token>` for this token. -/
def authOk (rq : Request) (bearer : JVal) : Bool :=
  match dictLookup rq.headersOf (.str "Authorization") with
  | some v => pyEq v (.str ("Bearer " ++ pyStr bearer))
  | none => false

/-- `k` does not `pyEq`-collide with any key of `d`. -/
def keyFreshIn (k : JVal) (d : PyDict) : Bool :=
  d.all (fun kv => !(pyEq kv.1 k))

/-- `k` collides with no key of `d`, in either comparison direction. -/
def keySepFrom (k : JVal) (d : PyDict) : Bool :=
  d.all (fun kv => !(pyEq kv.1 k) && !(pyEq k kv.1))

/-- All keys hashable and pairwise distinct (the dict invariant the
resolver's output enjoys). -/
def distinctHashableKeys : PyDict → Bool
  | [] => true
  | (k, _) :: rest => hashableKey k && keySepFrom k rest && distinctHashableKeys rest

/-- The per-entry result of the structured walk, stated declaratively:
the truthy last `loc` segment of an entry whose `type` contains
`"missing"`, `none` otherwise. -/
def missingOf (e : JVal) : Option JVal :=
  match dictGet e "type" (.str "") with
  | .error _ => none
  | .ok ty =>
    match pyContains ty (.str "missing") with
    | .ok true =>
      match dictGet e "loc" (.arr []) with
      | .error _ => none
      | .ok locv =>
        match getItemV locv (.num (-1)) with
        | .ok f => if pyTruthy f then some f else none
        | .error _ => none
    | _ => none

/-- A structurally standard error entry: a dict whose `type`, when
present, is a string, and whose `loc` is a present, non-empty list. -/
def stdEntry : JVal → Bool
  | .obj kvs =>
    (match kvs.find? (fun kv => kv.1 == "type") with
     | some (_, .str _) => true
     | none => true
     | some _ => false) &&
    (match kvs.find? (fun kv => kv.1 == "loc") with
     | some (_, .arr (_ :: _)) => true
     | _ => false)
  | _ => false

/-! ## Concrete fixtures -/

/-- An OpenAPI document whose login operation requires two typed fields. -/
def specLogin : JVal :=
  .obj [("paths", .obj [("/api/login", .obj [("post", .obj [("requestBody", .obj [("content",
    .obj [("application/json", .obj [("schema", .obj [("required", .arr [.str "u", .str "p"]),
      ("properties", .obj [("u", .obj [("type", .str "string")]),
                           ("p", .obj [("type", .str "integer")])])])])])])])])])]

/-- The field details `specLogin` resolves to. -/
def loginFields : PyDict :=
  [((JVal.str "u"), (JVal.str "string")), ((JVal.str "p"), (JVal.str "integer"))]

/-- A document whose login operation declares an empty content map. -/
def specEmptyContent : JVal :=
  .obj [("paths", .obj [("/x", .obj [("post",
    .obj [("requestBody", .obj [("content", .obj [])])])])])]

/-- A document declaring only an `options` operation for its path. -/
def specOptionsOnly : JVal :=
  .obj [("paths", .obj [("/x", .obj [("options", .obj [])])])]

/-- A document with no entry for the requested path. -/
def specMissingPath : JVal := .obj [("paths", .obj [])]

/-- A document whose content entry lacks a `schema`. -/
def specNoSchema : JVal :=
  .obj [("paths", .obj [("/x", .obj [("post", .obj [("requestBody", .obj [("content",
    .obj [("application/json", .obj [])])])])])])]

/-- A document listing a required name absent from `properties`. -/
def specReqNoProp : JVal :=
  .obj [("paths", .obj [("/x", .obj [("post", .obj [("requestBody", .obj [("content",
    .obj [("application/json", .obj [("schema", .obj [("required", .arr [.str "u"]),
      ("properties", .obj [])])])])])])])])]

/-- A document whose required property lacks a `type`. -/
def specNoType : JVal :=
  .obj [("paths", .obj [("/x", .obj [("post", .obj [("requestBody", .obj [("content",
    .obj [("application/json", .obj [("schema", .obj [("required", .arr [.str "u"]),
      ("properties", .obj [("u", .obj [])])])])])])])])])]

/-- A standard FastAPI-style missing-field error body naming `username`. -/
def respMissingUsername : JVal :=
  .obj [("detail", .arr [.obj [("type", .str "value_error.missing"),
    ("loc", .arr [.str "body", .str "username"])]])]

/-- A missing-field error body for the login repair-loop runs. -/
def respMissingX : JVal :=
  .obj [("detail", .arr [.obj [("type", .str "missing"),
    ("loc", .arr [.str "body", .str "x"])]])]

/-- A login path item with a single `post` operation and no request body. -/
def specBareLogin : JVal :=
  .obj [("paths", .obj [("/api/login", .obj [("post", .obj [])])])]

/-- Streams for a login run whose two responses both report missing
fields: one repair round happens and the second failure is surfaced. -/
def streamsTwoFailures : Streams := ⟨["v"], [], [respMissingX, respMissingX]⟩

/-- Streams for a full login run with collected fields and a repair. -/
def streamsLoginRepair : Streams :=
  ⟨["uu", "pp", "rep"], [.ok (.obj [("response", .str "hi")])],
   [respMissingX, .obj [("access_token", .str "T")]]⟩

/-- A login response carrying a bearer token. -/
def respWithToken : JVal := .obj [("access_token", .str "T")]

/-- Streams for a post-login run that lists jobs and updates one. -/
def streamsJobsRun : Streams :=
  ⟨["1", "done"],
   [.ok (.obj [("response", .str "t1")]), .ok (.obj [("response", .str "t2")]),
    .ok (.obj [("response", .str "t3")]), .ok (.obj [("response", .str "t4")])],
   [.arr [.obj [("id", .num 1)]], .obj [("ok", .bool true)]]⟩

/-- Streams holding only the interpretation call of an aborting run. -/
def streamsAbort : Streams := ⟨[], [.ok (.obj [("response", .str "t")])], []⟩

/-- The first request of the `specLogin`/`streamsLoginRepair` run. -/
def c10req1 : Request := .postJson "http://localhost:8000/api/login"
  (some [((JVal.str "u"), (JVal.str "uu")), ((JVal.str "p"), (JVal.str "pp"))])
  [((JVal.str "Content-Type"), (JVal.str "application/json"))]

/-- The repaired second request of the same run, carrying the same
(mutated) headers object. -/
def c10req2 : Request := .postJson "http://localhost:8000/api/login"
  (some [((JVal.str "u"), (JVal.str "uu")), ((JVal.str "p"), (JVal.str "pp")),
         ((JVal.str "x"), (JVal.str "rep"))])
  [((JVal.str "Content-Type"), (JVal.str "application/json"))]

/-! ## Helper lemmas -/

theorem isKeyErrorResult_error {α : Type} (e : PyErr) (h : e ≠ .keyError) :
    isKeyErrorResult (.error e : Except PyErr α) = false := by
  cases e <;> simp_all [isKeyErrorResult]

theorem catchKeyError_not_keyError {α : Type} (x : Except PyErr α) (d : α) :
    isKeyErrorResult (catchKeyError x d) = false := by
  cases x with
  | ok v => rfl
  | error e =>
    by_cases h : e = .keyError
    · subst h; rfl
    · simp only [catchKeyError, if_neg h]
      exact isKeyErrorResult_error e h

theorem erf_no_keyError (spec : JVal) (ep : String) (mh : Option String) :
    isKeyErrorResult (extract_required_fields spec ep mh) = false := by
  unfold extract_required_fields
  cases mh with
  | some m => exact catchKeyError_not_keyError _ _
  | none =>
    cases hdm : determineMethod spec ep with
    | error e =>
      by_cases h : e = .keyError
      · simp [h, isKeyErrorResult]
      · simp only [if_neg h]
        exact isKeyErrorResult_error e h
    | ok om =>
      cases om with
      | none => rfl
      | some m => exact catchKeyError_not_keyError _ _

theorem filter_head_sat {α : Type} (p : α → Bool) :
    ∀ (xs : List α) (m : α) (rest : List α), xs.filter p = m :: rest → p m = true := by
  intro xs m rest h
  have hm : m ∈ xs.filter p := by rw [h]; exact List.mem_cons_self m rest
  exact List.of_mem_filter hm

theorem determineMethod_recognized (spec : JVal) (ep : String) (m : String)
    (h : determineMethod spec ep = .ok (some m)) :
    httpMethodTokens.contains (pyLower m) = true := by
  unfold determineMethod at h
  split at h
  · exact absurd h (by simp)
  · split at h
    · exact absurd h (by simp)
    · split at h
      · exact absurd h (by simp)
      · split at h
        · exact absurd h (by simp)
        · rename_i available hfilter
          have := filter_head_sat (fun (x : String) => httpMethodTokens.contains (pyLower x)) _ _ _ hfilter
          simp only [Except.ok.injEq, Option.some.injEq] at h
          subst h
          exact this

theorem erfTry_shape (spec : JVal) (ep m : String) (fd : PyDict) (ct : Option JVal)
    (mr : Option String) (h : erfTry spec ep m = .ok (fd, ct, mr)) :
    mr = some m ∧ (fd ≠ [] → ct.isSome = true) := by
  unfold erfTry at h
  repeat' split at h
  all_goals (first
    | exact Except.noConfusion h
    | (injection h with hok
       injection hok with h1 hrest
       injection hrest with h2 h3
       subst h1
       subst h2
       subst h3
       simp))

/-! ## Claim C2 -/

/-- C2 (counterexample): the claim says an empty content map degrades to
an empty descriptor, but `extract_required_fields` on a document whose
`requestBody.content` is `{}` raises StopIteration out of
`next(iter(content_types))`, which the `except KeyError` does not catch. -/
theorem C2_counterexample :
    extract_required_fields specEmptyContent "/x" none = .error .stopIteration := rfl

/-- C2 (amended): resolution never lets a KeyError escape, so a missing
path, a missing operation, a missing content map, a missing schema, a
required name absent from `properties`, or a property lacking a `type`
all degrade to an empty descriptor; only an empty (not missing) content
map raises (StopIteration, see the counterexample). -/
theorem C2_resolver_soft_degrade :
    (∀ spec ep mh, isKeyErrorResult (extract_required_fields spec ep mh) = false) ∧
    extract_required_fields specMissingPath "/x" none = .ok ([], none, none) ∧
    extract_required_fields specOptionsOnly "/x" (some "post") = .ok ([], none, some "post") ∧
    extract_required_fields specNoSchema "/x" none = .ok ([], none, some "post") ∧
    extract_required_fields specReqNoProp "/x" none = .ok ([], none, some "post") ∧
    extract_required_fields specNoType "/x" none = .ok ([], none, some "post") :=
  ⟨erf_no_keyError, rfl, rfl, rfl, rfl, rfl⟩

/-! ## Claim C4 -/

/-- C4 (counterexample): an endpoint declaring only an `options`
operation resolves to the method `options`, which is outside the claimed
five-method set {get, post, put, delete, patch}. -/
theorem C4_counterexample :
    extract_required_fields specOptionsOnly "/x" none = .ok ([], none, some "options") ∧
    claimedMethods.contains "options" = false := ⟨rfl, rfl⟩

/-- C4 (amended): with no method hint, any method the resolver returns is
drawn (case-insensitively) from the recognized seven-token set
{get, post, put, delete, patch, options, head}, and whenever the resolved
`requiredFields` are non-empty the content type is present. -/
theorem C4_method_recognized_and_ct (spec : JVal) (ep : String) (fd : PyDict)
    (ct : Option JVal) (m : Option String)
    (h : extract_required_fields spec ep none = .ok (fd, ct, m)) :
    (∀ mstr, m = some mstr → httpMethodTokens.contains (pyLower mstr) = true) ∧
    (fd ≠ [] → ct.isSome = true) := by
  simp only [extract_required_fields] at h
  split at h
  · -- determineMethod raised
    rename_i e hdm
    split at h
    · injection h with hok
      injection hok with h1 hrest
      injection hrest with h2 h3
      subst h1; subst h2; subst h3
      simp
    · exact Except.noConfusion h
  · -- no recognized method
    injection h with hok
    injection hok with h1 hrest
    injection hrest with h2 h3
    subst h1; subst h2; subst h3
    simp
  · -- first recognized method m0
    rename_i m0 hdm
    have hrec := determineMethod_recognized spec ep m0 hdm
    unfold catchKeyError at h
    split at h
    · -- erfTry succeeded
      rename_i v herf
      obtain ⟨v1, v2, v3⟩ := v
      have hshape := erfTry_shape spec ep m0 v1 v2 v3 herf
      injection h with hok
      injection hok with h1 hrest
      injection hrest with h2 h3
      subst h1; subst h2; subst h3
      constructor
      · intro mstr hm
        rw [hshape.1] at hm
        injection hm with hm'
        subst hm'
        exact hrec
      · exact hshape.2
    · -- erfTry raised
      split at h
      · injection h with hok
        injection hok with h1 hrest
        injection hrest with h2 h3
        subst h1; subst h2; subst h3
        constructor
        · intro mstr hm
          injection hm with hm'
          subst hm'
          exact hrec
        · simp
      · exact Except.noConfusion h

/-- C4 (witness): the amended theorem applied to a concrete document
resolving `/api/login` to `post` with two required fields and a JSON
content type. -/
theorem C4_witness :
    httpMethodTokens.contains (pyLower "post") = true ∧
    (some (JVal.str "application/json") : Option JVal).isSome = true := by
  have h := C4_method_recognized_and_ct specLogin "/api/login" loginFields
    (some (.str "application/json")) (some "post") rfl
  exact ⟨h.1 "post" rfl, h.2 (by simp [loginFields])⟩

/-! ## Claim C5 -/

/-- C5 (code bug): classification failure is supposed to be soft, and the
code does return the empty set when `detail` is absent and the generator
text is unparsable; but on a detail entry whose `type` contains
`"missing"` and whose `loc` is absent, the fallback evaluates
`error.get("loc", [])[-1]`, indexing the empty default list, and raises
IndexError instead of degrading. -/
theorem C5_classifier_empty_loc_raises :
    extract_missing_fields_from_response
      (.obj [("detail", .arr [.obj [("type", .str "missing")]])]) .parseSyntaxOrName
      = .error .indexError ∧
    extract_missing_fields_from_response (.obj [("ok", .bool true)]) .parseSyntaxOrName
      = .ok (.arr []) := ⟨rfl, rfl⟩

/-! ## Claim C8 -/

/-- C8: job-id extraction never raises on any input, yields the ids of a
bare list response and of a `jobs`-wrapper response, and returns the
empty list on every other input shape. -/
theorem C8_job_ids_total_shapes :
    (∀ v, exceptIsOk (extract_job_ids v) = true) ∧
    extract_job_ids (.arr [.obj [("id", .num 1)], .obj [("id", .num 2)]])
      = .ok [.num 1, .num 2] ∧
    extract_job_ids (.obj [("jobs", .arr [.obj [("id", .num 1)]])]) = .ok [.num 1] ∧
    (∀ v, notJobsShaped v = true → extract_job_ids v = .ok []) := by
  refine ⟨?_, rfl, rfl, ?_⟩
  · intro v
    unfold extract_job_ids
    repeat' split
    all_goals rfl
  · intro v hv
    cases v with
    | arr xs => exact absurd hv (by simp [notJobsShaped])
    | obj kvs =>
      simp only [notJobsShaped, Bool.not_eq_true'] at hv
      simp [extract_job_ids, hv]
    | null => rfl
    | bool b => rfl
    | num n => rfl
    | str s => rfl

/-- C8 (witness): a number is neither list- nor wrapper-shaped and yields
the empty id list. -/
theorem C8_witness : extract_job_ids (JVal.num 42) = .ok [] :=
  C8_job_ids_total_shapes.2.2.2 (JVal.num 42) rfl

/-! ## Claim C3 -/

theorem pyEq_str_right (v : JVal) (c : String) (h : pyEq v (.str c) = true) :
    v = .str c := by
  cases v <;> simp [pyEq] at h
  subst h; rfl

/-- C3 (counterexample): the claim quantifies over all five methods, but a
PUT dispatch with the form content type sends a JSON-structured body, not
the `key=value&...` literal — only the POST branch form-serializes. -/
theorem C3_counterexample :
    (call_api "u" (some [((JVal.str "a"), (JVal.str "1"))]) (some [])
        (some (.str "application/x-www-form-urlencoded")) "put").2
      = .ok (.putJson "u" (some [((JVal.str "a"), (JVal.str "1"))])
          [((JVal.str "Content-Type"), (JVal.str "application/x-www-form-urlencoded"))]) ∧
    Request.isFormData (.putJson "u" (some [((JVal.str "a"), (JVal.str "1"))])
          [((JVal.str "Content-Type"), (JVal.str "application/x-www-form-urlencoded"))])
      = false := ⟨rfl, rfl⟩

/-- C3 (amended): for a POST (case-insensitively) with a non-empty payload
and the form content type, the body is exactly the `key=value` pairs
joined by `&`, with no percent-encoding and in payload order — as the two
concrete serializations show. -/
theorem C3_form_encoding_post_only :
    (∀ url (p h : PyDict) ct m, pyLower m = "post" → p ≠ [] →
      ctIsForm (some ct) = true →
      (call_api url (some p) (some h) (some ct) m).2 =
        .ok (.postData url (formJoin p) (dictUpd h (.str "Content-Type") ct))) ∧
    formJoin [((JVal.str "a"), (JVal.str "1")), ((JVal.str "b"), (JVal.str "2"))]
      = "a=1&b=2" ∧
    formJoin [((JVal.str "b"), (JVal.str "2")), ((JVal.str "a"), (JVal.str "1"))]
      = "b=2&a=1" := by
  refine ⟨?_, rfl, rfl⟩
  intro url p h ct m hm hp hform
  have hct : ct = .str "application/x-www-form-urlencoded" :=
    pyEq_str_right ct _ hform
  subst hct
  have hpt : payloadTruthy (some p) = true := by
    cases p with
    | nil => exact absurd rfl hp
    | cons kv rest => rfl
  unfold call_api
  rw [hm]
  simp [hpt, ctTruthy, pyTruthy, ctIsForm, pyEq, callDispatch]

/-- C3 (witness): the amended theorem at a concrete uppercase POST call. -/
theorem C3_witness :
    (call_api "u" (some [((JVal.str "a"), (JVal.str "1"))]) (some [])
        (some (.str "application/x-www-form-urlencoded")) "POST").2
      = .ok (.postData "u" "a=1"
          [((JVal.str "Content-Type"), (JVal.str "application/x-www-form-urlencoded"))]) := by
  have h := C3_form_encoding_post_only.1 "u" [((JVal.str "a"), (JVal.str "1"))] []
    (.str "application/x-www-form-urlencoded") "POST" rfl (by simp) rfl
  exact h

/-! ## Claim C1 -/

theorem listIndex_neg_one (x : JVal) (xs : List JVal) :
    ∃ v, listIndex (x :: xs) (-1) = .ok v := by
  have hlen : xs.length < (x :: xs).length := by simp
  refine ⟨(x :: xs).get ⟨xs.length, hlen⟩, ?_⟩
  unfold listIndex
  simp only [List.length_cons]
  have h1 : ((-1 : Int) < 0) := by decide
  rw [if_pos h1]
  have hj : (-1 : Int) + ((xs.length + 1 : Nat) : Int) = ((xs.length : Nat) : Int) := by
    push_cast
    ring
  rw [hj]
  rw [if_pos (Int.ofNat_nonneg _)]
  rw [Int.toNat_ofNat]
  rw [List.get?_eq_get hlen]

/-- One standard entry advances the manual walk by its declarative
per-entry result. -/
theorem manualExtractLoop_cons_std (e : JVal) (rest : List JVal) (acc : List JVal)
    (he : stdEntry e = true) :
    manualExtractLoop (e :: rest) acc =
      manualExtractLoop rest (acc ++ (missingOf e).toList) := by
  cases e with
  | null => exact absurd he (by simp [stdEntry])
  | bool b => exact absurd he (by simp [stdEntry])
  | num n => exact absurd he (by simp [stdEntry])
  | str s => exact absurd he (by simp [stdEntry])
  | arr xs => exact absurd he (by simp [stdEntry])
  | obj kvs =>
    simp only [stdEntry, Bool.and_eq_true] at he
    obtain ⟨hty, hloc⟩ := he
    obtain ⟨lk, l0, ls, hfind⟩ :
        ∃ lk l0 ls, kvs.find? (fun kv => kv.1 == "loc") = some (lk, .arr (l0 :: ls)) := by
      cases hf : kvs.find? (fun kv => kv.1 == "loc") with
      | none => rw [hf] at hloc; exact absurd hloc (by simp)
      | some kv =>
        obtain ⟨lk, lv⟩ := kv
        rw [hf] at hloc
        cases lv with
        | arr l =>
          cases l with
          | nil => exact absurd hloc (by simp)
          | cons l0 ls => exact ⟨lk, l0, ls, rfl⟩
        | null => exact absurd hloc (by simp)
        | bool b => exact absurd hloc (by simp)
        | num n => exact absurd hloc (by simp)
        | str s => exact absurd hloc (by simp)
        | obj o => exact absurd hloc (by simp)
    obtain ⟨tyv, htyv, htystr⟩ :
        ∃ tyv, dictGet (.obj kvs) "type" (.str "") = .ok tyv ∧ ∃ t, tyv = JVal.str t := by
      cases hf : kvs.find? (fun kv => kv.1 == "type") with
      | none => exact ⟨.str "", by simp [dictGet, hf], "", rfl⟩
      | some kv =>
        obtain ⟨tk, tv⟩ := kv
        rw [hf] at hty
        cases tv with
        | str t => exact ⟨.str t, by simp [dictGet, hf], t, rfl⟩
        | null => exact absurd hty (by simp)
        | bool b => exact absurd hty (by simp)
        | num n => exact absurd hty (by simp)
        | arr a => exact absurd hty (by simp)
        | obj o => exact absurd hty (by simp)
    obtain ⟨t, htv⟩ := htystr
    subst htv
    obtain ⟨lastv, hlast⟩ := listIndex_neg_one l0 ls
    have hlocget : dictGet (.obj kvs) "loc" (.arr []) = .ok (.arr (l0 :: ls)) := by
      simp [dictGet, hfind]
    have hmo : missingOf (.obj kvs)
        = (if strContains t "missing" then
             (if pyTruthy lastv then some lastv else none) else none) := by
      simp only [missingOf, htyv, pyContains, hlocget, getItemV, hlast]
      by_cases hmiss : strContains t "missing" <;> simp [hmiss]
    simp only [manualExtractLoop, htyv, pyContains, hlocget, getItemV, hlast, hmo]
    by_cases hmiss : strContains t "missing"
    · simp only [hmiss, if_true]
      by_cases htr : pyTruthy lastv <;> simp [htr]
    · simp [hmiss]

/-- The manual walk on standard entries equals the in-order declarative
collection. -/
theorem manualExtractLoop_std (entries : List JVal) (h : entries.all stdEntry = true) :
    ∀ acc, manualExtractLoop entries acc = .ok (acc ++ entries.filterMap missingOf) := by
  induction entries with
  | nil => intro acc; simp [manualExtractLoop]
  | cons e rest ih =>
    intro acc
    simp only [List.all_cons, Bool.and_eq_true] at h
    obtain ⟨he, hrest⟩ := h
    rw [manualExtractLoop_cons_std e rest acc he, ih hrest]
    cases hm : missingOf e <;> simp [List.filterMap_cons, hm]

/-- C1 (counterexample): on a standard missing-`username` body whose
generator text parses to `["zzz"]`, the code returns the generator's
output, while the claimed ordering (structured walk first) yields
`["username"]` — the code consults the generator first, not second. -/
theorem C1_counterexample :
    extract_missing_fields_from_response respMissingUsername (.evalOk (.arr [.str "zzz"]))
      = .ok (.arr [.str "zzz"]) ∧
    classifySpecOrdered respMissingUsername (.evalOk (.arr [.str "zzz"]))
      = .ok (.arr [.str "username"]) ∧
    extract_missing_fields_from_response respMissingUsername (.evalOk (.arr [.str "zzz"]))
      ≠ classifySpecOrdered respMissingUsername (.evalOk (.arr [.str "zzz"])) := by
  refine ⟨rfl, rfl, ?_⟩
  intro hcontra
  have hc : (Except.ok (JVal.arr [JVal.str "zzz"]) : Except PyErr JVal)
      = Except.ok (JVal.arr [JVal.str "username"]) := hcontra
  simp at hc

/-- C1 (amended): the classifier consults the external generator first and
returns its parsed output unconditionally; the structured walk of the
`detail` list is the fallback, run exactly when parsing fails with
SyntaxError/NameError, and on standard entries it collects the truthy
`loc[-1]` of each `"missing"`-typed entry, in order. -/
theorem C1_generator_first_walk_fallback :
    (∀ r v, extract_missing_fields_from_response r (.evalOk v) = .ok v) ∧
    (∀ r, extract_missing_fields_from_response r .parseSyntaxOrName = manualExtract r) ∧
    (∀ entries, entries.all stdEntry = true →
      manualExtract (.obj [("detail", .arr entries)])
        = .ok (.arr (entries.filterMap missingOf))) := by
  refine ⟨fun r v => rfl, fun r => rfl, ?_⟩
  intro entries hstd
  calc manualExtract (.obj [("detail", .arr entries)])
      = (match manualExtractLoop entries [] with
         | Except.error e => (Except.error e : Except PyErr JVal)
         | Except.ok fs => Except.ok (JVal.arr fs)) := rfl
    _ = .ok (.arr (entries.filterMap missingOf)) := by
        rw [manualExtractLoop_std entries hstd []]
        rfl

/-- C1 (witness): the amended theorem applied to a parse failure over a
two-entry detail list, collecting only the missing-typed entry. -/
theorem C1_witness :
    manualExtract (.obj [("detail", .arr
      [.obj [("type", .str "value_error.missing"), ("loc", .arr [.str "body", .str "username"])],
       .obj [("type", .str "type_error.integer"), ("loc", .arr [.str "body", .str "age"])]])])
      = .ok (.arr [.str "username"]) := by
  have h := C1_generator_first_walk_fallback.2.2
    [.obj [("type", .str "value_error.missing"), ("loc", .arr [.str "body", .str "username"])],
     .obj [("type", .str "type_error.integer"), ("loc", .arr [.str "body", .str "age"])]]
    (by rfl)
  exact h

/-! ## Claim C7 -/

theorem dictUpd_fresh : ∀ (d : PyDict) (k v : JVal), keyFreshIn k d = true →
    dictUpd d k v = d ++ [(k, v)] := by
  intro d k v h
  induction d with
  | nil => rfl
  | cons kv rest ih =>
    obtain ⟨k', v'⟩ := kv
    simp only [keyFreshIn, List.all_cons, Bool.and_eq_true, Bool.not_eq_true'] at h
    obtain ⟨hk, hrest⟩ := h
    simp only [dictUpd]
    rw [if_neg (by simp [hk])]
    rw [ih hrest]
    simp

/-- The prompt loop consumes one input per field, in order, and appends
one verbatim entry per field. -/
theorem collectLoop_spec : ∀ (fd : PyDict) (acc : PyDict) (s : Streams),
    distinctHashableKeys fd = true →
    fd.length ≤ s.stdin.length →
    fd.all (fun kv => keyFreshIn kv.1 acc) = true →
    collectLoop fd acc s =
      .ok (acc ++ (fd.map (fun kv => kv.1)).zip ((s.stdin.take fd.length).map JVal.str),
        { s with stdin := s.stdin.drop fd.length }) := by
  intro fd
  induction fd with
  | nil => intro acc s _ _ _; simp [collectLoop]
  | cons kv rest ih =>
    intro acc s hdk hlen hfresh
    obtain ⟨f, ty⟩ := kv
    simp only [distinctHashableKeys, Bool.and_eq_true] at hdk
    obtain ⟨⟨hhash, hsep⟩, hdrest⟩ := hdk
    simp only [List.all_cons, Bool.and_eq_true] at hfresh
    obtain ⟨hf, hfrest⟩ := hfresh
    cases hs : s.stdin with
    | nil => rw [hs] at hlen; simp at hlen
    | cons v vs =>
      have hlen' : rest.length ≤ ({ s with stdin := vs } : Streams).stdin.length := by
        rw [hs] at hlen
        simp only [List.length_cons] at hlen ⊢
        omega
      have hfresh' : (rest.all fun kv => keyFreshIn kv.1 (acc ++ [(f, JVal.str v)])) = true := by
        simp only [List.all_eq_true] at hfrest ⊢
        intro x hx
        have h1 := hfrest x hx
        have h2 : (!(pyEq x.1 f) && !(pyEq f x.1)) = true := by
          have hsep' := hsep
          simp only [keySepFrom, List.all_eq_true] at hsep'
          exact hsep' x hx
        simp only [Bool.and_eq_true] at h2
        simp only [keyFreshIn, List.all_append, Bool.and_eq_true] at h1 ⊢
        exact ⟨h1, by simp [h2.2]⟩
      simp only [collectLoop, takeInput, hs]
      simp only [pyDictSet, hhash, if_true]
      rw [dictUpd_fresh acc f (.str v) hf]
      rw [ih (acc ++ [(f, JVal.str v)]) { s with stdin := vs } hdrest hlen' hfresh']
      simp

/-- C7 (counterexample): when the text-generation call fails — here the
generator response lacks the `response` field — `collect_user_inputs`
raises instead of running the prompt loop, even though an input value was
available. -/
theorem C7_counterexample :
    collect_user_inputs [((JVal.str "x"), (JVal.str "string"))]
      ⟨["v"], [.ok (.obj [])], []⟩ = .error .keyError := rfl

/-- C7 (amended): whenever the text-generation call returns an object
carrying a `response` field — however unusable its text — the
deterministic prompt-per-field loop runs: one captured value per field,
in the given order, passed through verbatim, and the payload's keys are
exactly the given field names. -/
theorem C7_collect_runs_when_generation_returns :
    ∀ (fd : PyDict) (q : JVal) (grest : List (Except PyErr JVal))
      (si : List String) (sn : List JVal),
      distinctHashableKeys fd = true →
      fd.length ≤ si.length →
      collect_user_inputs fd ⟨si, .ok (.obj [("response", q)]) :: grest, sn⟩ =
        .ok ((fd.map (fun kv => kv.1)).zip ((si.take fd.length).map JVal.str),
          ⟨si.drop fd.length, grest, sn⟩) := by
  intro fd q grest si sn hdk hlen
  calc collect_user_inputs fd ⟨si, .ok (.obj [("response", q)]) :: grest, sn⟩
      = collectLoop fd [] ⟨si, grest, sn⟩ := rfl
    _ = _ := by
        rw [collectLoop_spec fd [] ⟨si, grest, sn⟩ hdk hlen (by simp [keyFreshIn])]
        rfl

/-- C7 (witness): the amended theorem at one field and one queued input. -/
theorem C7_witness :
    collect_user_inputs [((JVal.str "u"), (JVal.str "string"))]
      ⟨["val"], [.ok (.obj [("response", .str "whatever")])], []⟩ =
      .ok ([((JVal.str "u"), (JVal.str "val"))], ⟨[], [], []⟩) := by
  have h := C7_collect_runs_when_generation_returns
    [((JVal.str "u"), (JVal.str "string"))] (.str "whatever") [] ["val"] []
    rfl (by decide)
  exact h

/-! ## Stream and dict lemmas for the orchestrator claims -/

theorem takeNet_net (s : Streams) (v : JVal) (s' : Streams)
    (h : takeNet s = .ok (v, s')) : s.net = v :: s'.net := by
  unfold takeNet at h
  split at h
  · exact Except.noConfusion h
  · rename_i x rest hx
    injection h with h'
    injection h' with h1 h2
    subst h1
    subst h2
    simp [hx]

theorem takeInput_streams (s : Streams) (v : String) (s' : Streams)
    (h : takeInput s = .ok (v, s')) : s'.net = s.net ∧ s'.gen = s.gen := by
  unfold takeInput at h
  split at h
  · exact Except.noConfusion h
  · rename_i x rest hx
    injection h with h'
    injection h' with h1 h2
    subst h2
    exact ⟨rfl, rfl⟩

theorem dictUpd_ne_nil (d : PyDict) (k v : JVal) : dictUpd d k v ≠ [] := by
  cases d with
  | nil => simp [dictUpd]
  | cons kv rest =>
    obtain ⟨k', v'⟩ := kv
    by_cases h : pyEq k' k <;> simp [dictUpd, h]

theorem collectLoop_out : ∀ (fd acc : PyDict) (s : Streams) (p : PyDict) (s' : Streams),
    collectLoop fd acc s = .ok (p, s') →
    s'.net = s.net ∧ (acc ≠ [] ∨ fd ≠ [] → p ≠ []) := by
  intro fd
  induction fd with
  | nil =>
    intro acc s p s' h
    unfold collectLoop at h
    injection h with h'
    injection h' with h1 h2
    subst h1
    subst h2
    exact ⟨rfl, fun hor => hor.elim id (fun hf => absurd rfl hf)⟩
  | cons kv rest ih =>
    intro acc s p s' h
    obtain ⟨f, ty⟩ := kv
    unfold collectLoop at h
    split at h
    · exact Except.noConfusion h
    · rename_i v s1 hin
      split at h
      · exact Except.noConfusion h
      · rename_i acc' hset
        have hs1 := takeInput_streams s v s1 hin
        have hrec := ih acc' s1 p s' h
        refine ⟨hrec.1.trans hs1.1, fun _ => ?_⟩
        have hacc' : acc' ≠ [] := by
          unfold pyDictSet at hset
          split at hset
          · injection hset with h''
            subst h''
            exact dictUpd_ne_nil acc f (.str v)
          · exact Except.noConfusion hset
        exact hrec.2 (Or.inl hacc')

theorem generate_streams (fd : PyDict) (s : Streams) (q : JVal) (s' : Streams)
    (h : generate_user_questions fd s = .ok (q, s')) :
    s'.net = s.net ∧ s'.stdin = s.stdin := by
  unfold generate_user_questions at h
  split at h
  · exact Except.noConfusion h
  · rename_i resp s1 hg
    split at h
    · exact Except.noConfusion h
    · injection h with h'
      injection h' with h1 h2
      subst h2
      unfold takeGen at hg
      split at hg
      · injection hg with hg1 hg2
        exact Except.noConfusion hg1
      · rename_i r rest hr
        injection hg with hg1 hg2
        subst hg2
        exact ⟨rfl, rfl⟩

theorem collect_user_inputs_out (fd : PyDict) (s : Streams) (p : PyDict) (s' : Streams)
    (h : collect_user_inputs fd s = .ok (p, s')) :
    s'.net = s.net ∧ (fd ≠ [] → p ≠ []) := by
  unfold collect_user_inputs at h
  split at h
  · exact Except.noConfusion h
  · rename_i q s1 hg
    have hg' := generate_streams fd s q s1 hg
    have hc := collectLoop_out fd [] s1 p s' h
    exact ⟨hc.1.trans hg'.1, fun hfd => hc.2 (Or.inr hfd)⟩

theorem headersLoop_net : ∀ (hd acc : PyDict) (s : Streams) (out : PyDict) (s' : Streams),
    headersLoop hd acc s = .ok (out, s') → s'.net = s.net := by
  intro hd
  induction hd with
  | nil =>
    intro acc s out s' h
    unfold headersLoop at h
    injection h with h'
    injection h' with h1 h2
    subst h2
    rfl
  | cons kv rest ih =>
    intro acc s out s' h
    obtain ⟨k, ty⟩ := kv
    unfold headersLoop at h
    split at h
    · exact Except.noConfusion h
    · rename_i v s1 hin
      split at h
      · exact Except.noConfusion h
      · rename_i acc' hset
        exact (ih acc' s1 out s' h).trans (takeInput_streams s v s1 hin).1

theorem repairInputs_out : ∀ (fs : List JVal) (pay : PyDict) (s : Streams)
    (p' : PyDict) (s' : Streams),
    repairInputs fs pay s = .ok (p', s') →
    s'.net = s.net ∧ (pay ≠ [] → p' ≠ []) := by
  intro fs
  induction fs with
  | nil =>
    intro pay s p' s' h
    unfold repairInputs at h
    injection h with h'
    injection h' with h1 h2
    subst h1
    subst h2
    exact ⟨rfl, id⟩
  | cons f rest ih =>
    intro pay s p' s' h
    unfold repairInputs at h
    split at h
    · exact Except.noConfusion h
    · rename_i v s1 hin
      split at h
      · exact Except.noConfusion h
      · rename_i pay1 hset
        have hrec := ih pay1 s1 p' s' h
        refine ⟨hrec.1.trans (takeInput_streams s v s1 hin).1, fun _ => ?_⟩
        have hpay1 : pay1 ≠ [] := by
          unfold pyDictSet at hset
          split at hset
          · injection hset with h''
            subst h''
            exact dictUpd_ne_nil pay f (.str v)
          · exact Except.noConfusion hset
        exact hrec.2 hpay1

theorem callDispatch_ok_headers (u : String) (p : Option PyDict) (ct : Option JVal)
    (m : String) (h1 : PyDict) (rq : Request)
    (h : (callDispatch u p ct m h1).2 = .ok rq) : rq.headersOf = h1 := by
  unfold callDispatch at h
  repeat' split at h
  all_goals first
    | exact Except.noConfusion h
    | (injection h with h'
       subst h'
       rfl)

theorem callDispatch_fst (u : String) (p : Option PyDict) (ct : Option JVal)
    (m : String) (h1 : PyDict) : (callDispatch u p ct m h1).1 = h1 := by
  unfold callDispatch
  repeat' split
  all_goals rfl

theorem call_api_headers_mutation (u : String) (p : PyDict) (hd : PyDict)
    (ct : Option JVal) (m : String) (hp : p ≠ []) (hc : ctTruthy ct = true) :
    (call_api u (some p) (some hd) ct m).1
      = dictUpd hd (.str "Content-Type") (ct.getD .null) := by
  have hpt : payloadTruthy (some p) = true := by
    cases p with
    | nil => exact absurd rfl hp
    | cons kv rest => rfl
  unfold call_api
  simp only [Option.getD, hpt, hc, Bool.and_self, if_true]
  exact callDispatch_fst _ _ _ _ _

theorem call_api_ok_headers (u : String) (p : Option PyDict) (hd : Option PyDict)
    (ct : Option JVal) (m : String) (rq : Request)
    (h : (call_api u p hd ct m).2 = .ok rq) :
    rq.headersOf = (call_api u p hd ct m).1 := by
  unfold call_api at h ⊢
  rw [callDispatch_ok_headers _ _ _ _ _ _ h]
  rw [callDispatch_fst]

theorem dictLookup_dictUpd_self (d : PyDict) (c : String) (v : JVal) :
    dictLookup (dictUpd d (.str c) v) (.str c) = some v := by
  induction d with
  | nil => simp [dictUpd, dictLookup, pyEq]
  | cons kv rest ih =>
    obtain ⟨k', v'⟩ := kv
    by_cases h : pyEq k' (.str c)
    · simp [dictUpd, h, dictLookup]
    · simp [dictUpd, h, dictLookup, ih]

theorem dictLookup_dictUpd_ne (d : PyDict) (c c' : String) (v : JVal) (h : c ≠ c') :
    dictLookup (dictUpd d (.str c) v) (.str c') = dictLookup d (.str c') := by
  induction d with
  | nil =>
    simp only [dictUpd, dictLookup]
    rw [if_neg (by simp [pyEq, h])]
  | cons kv rest ih =>
    obtain ⟨k', v'⟩ := kv
    by_cases hk : pyEq k' (.str c)
    · have hk' := pyEq_str_right k' c hk
      subst hk'
      simp only [dictUpd, hk, if_true, dictLookup]
      rw [if_neg (by simp [pyEq, h]), if_neg (by simp [pyEq, h])]
    · by_cases hk2 : pyEq k' (.str c') <;>
        simp [dictUpd, hk, dictLookup, hk2, ih]

theorem call_api_ok_lookup_ct (u : String) (p : PyDict) (hd : PyDict) (ct : Option JVal)
    (m : String) (h1 : PyDict) (rq : Request)
    (hp : p ≠ []) (hc : ctTruthy ct = true)
    (hca : call_api u (some p) (some hd) ct m = (h1, .ok rq)) :
    dictLookup rq.headersOf (.str "Content-Type") = some (ct.getD .null) := by
  have hsnd : (call_api u (some p) (some hd) ct m).2 = .ok rq := by rw [hca]
  rw [call_api_ok_headers u (some p) (some hd) ct m rq hsnd]
  rw [call_api_headers_mutation u p hd ct m hp hc]
  exact dictLookup_dictUpd_self hd "Content-Type" (ct.getD .null)

/-! ## Claim C6 -/

/-- C6: the login phase issues at most two HTTP requests for any document,
streams and classifier outcome; and whenever it completes normally having
issued two, the surfaced final response is the second network response —
whatever it contains, including a second consecutive missing-field body,
which is therefore never retried. -/
theorem C6_login_repair_bounded :
    ∀ (spec : JVal) (s : Streams) (ev : EvalOutcome) (reqs : List Request)
      (res : Except PyErr (JVal × PyDict × PyDict)),
      mainLoginPhase spec s ev = ⟨reqs, res⟩ →
      reqs.length ≤ 2 ∧
      (∀ r pay hd, res = .ok (r, pay, hd) → reqs.length = 2 → s.net.get? 1 = some r) := by
  intro spec s ev reqs res heq
  unfold mainLoginPhase at heq
  repeat' split at heq
  all_goals
    (injection heq with hq1 hq2
     subst hq1
     subst hq2)
  all_goals refine ⟨by simp, ?_⟩
  all_goals intro r pay hd hres hlen
  all_goals try exact Except.noConfusion hres
  all_goals try simp at hlen
  rename_i x11 rf ct x10 rh mo ms he_erf he_erh x9 up s1 he_col x8 hdrs s2 he_hd
    x7 h1 rq1 he_c1 x6 resp1 s3 he_n1 x5 he_chk x4 mi he_cls x3 mf he_it
    x2 p2 s4 he_rep x1 h2 rq2 he_c2 x0 resp2 s5 he_n2
  injection hres with ht
  injection ht with ha hb
  subst ha
  have hs1 : s1.net = s.net := by
    by_cases hre : rf.isEmpty = true
    · rw [if_pos hre] at he_col
      injection he_col with hc
      injection hc with hc1 hc2
      subst hc2
      rfl
    · rw [if_neg hre] at he_col
      exact (collect_user_inputs_out rf s up s1 he_col).1
  have hs2 : s2.net = s1.net := headersLoop_net rh [] s1 hdrs s2 he_hd
  have hn1 : s2.net = resp1 :: s3.net := takeNet_net s2 resp1 s3 he_n1
  have hs4 : s4.net = s3.net := (repairInputs_out mf up s3 p2 s4 he_rep).1
  have hn2 : s4.net = resp2 :: s5.net := takeNet_net s4 resp2 s5 he_n2
  have hnet : s.net = resp1 :: resp2 :: s5.net := by
    calc s.net = s2.net := (hs2.trans hs1).symm
      _ = resp1 :: s3.net := hn1
      _ = resp1 :: s4.net := by rw [hs4]
      _ = resp1 :: resp2 :: s5.net := by rw [hn2]
  rw [hnet]
  rfl

/-- C6 (witness): a concrete run against a bare login operation whose two
responses both report a missing field: exactly two requests are issued and
the second, still-failing response is surfaced untouched. -/
theorem C6_witness :
    (mainLoginPhase specBareLogin streamsTwoFailures .parseSyntaxOrName).reqs.length ≤ 2 ∧
    streamsTwoFailures.net.get? 1 = some respMissingX := by
  have h := C6_login_repair_bounded specBareLogin streamsTwoFailures .parseSyntaxOrName
    (mainLoginPhase specBareLogin streamsTwoFailures .parseSyntaxOrName).reqs
    (mainLoginPhase specBareLogin streamsTwoFailures .parseSyntaxOrName).result rfl
  exact ⟨h.1, h.2 respMissingX [((JVal.str "x"), (JVal.str "v"))] [] rfl rfl⟩

/-! ## Claim C10 -/

/-- C10: `call_api` inserts `Content-Type` into the very headers mapping
the caller passed whenever a non-empty payload and a truthy content type
are given — for every method, GET included, since the insertion precedes
the dispatch — and the issued request carries that same mutated mapping;
in the orchestrator's login phase, the repaired second request reuses the
already-mutated mapping, so both issued requests carry the inserted
`Content-Type`. -/
theorem C10_headers_mutated_in_place :
    (∀ (u : String) (p hd : PyDict) (ct : Option JVal) (m : String),
      p ≠ [] → ctTruthy ct = true →
      (call_api u (some p) (some hd) ct m).1
        = dictUpd hd (.str "Content-Type") (ct.getD .null) ∧
      ∀ rq, (call_api u (some p) (some hd) ct m).2 = .ok rq →
        rq.headersOf = dictUpd hd (.str "Content-Type") (ct.getD .null)) ∧
    (∀ (spec : JVal) (s : Streams) (ev : EvalOutcome) (reqs : List Request)
       (res : Except PyErr (JVal × PyDict × PyDict))
       (fd : PyDict) (ct : Option JVal) (mo : Option String),
      mainLoginPhase spec s ev = ⟨reqs, res⟩ →
      extract_required_fields spec "/api/login" none = .ok (fd, ct, mo) →
      fd ≠ [] → ctTruthy ct = true →
      ∀ rq1 rq2, reqs = [rq1, rq2] →
        dictLookup rq1.headersOf (.str "Content-Type") = some (ct.getD .null) ∧
        dictLookup rq2.headersOf (.str "Content-Type") = some (ct.getD .null)) := by
  constructor
  · intro u p hd ct m hp hc
    refine ⟨call_api_headers_mutation u p hd ct m hp hc, ?_⟩
    intro rq hok
    rw [call_api_ok_headers u (some p) (some hd) ct m rq hok]
    exact call_api_headers_mutation u p hd ct m hp hc
  · intro spec s ev reqs res fd ct mo heq herf hfd hct rq1 rq2 hreqs
    subst hreqs
    unfold mainLoginPhase at heq
    repeat' split at heq
    all_goals
      (injection heq with hq1 hq2
       try simp at hq1)
    · rename_i x11 rf ct' x10 rh mo' ms he_erf he_erh x9 up s1 he_col x8 hdrs s2 he_hd
        x7 h1 rq1a he_c1 x6 resp1 s3 he_n1 x5 he_chk x4 mi he_cls x3 mf he_it
        x2 p2 s4 he_rep x1 h2 rq2a he_c2 x0 e0 he_n2
      obtain ⟨hr1, hr2⟩ := hq1
      subst hr1
      subst hr2
      have hinj : (fd, ct, mo) = (rf, ct', some ms) :=
        Except.ok.inj (herf.symm.trans he_erf)
      injection hinj with hA hBC
      injection hBC with hB hC
      subst hA
      subst hB
      split at he_col
      · rename_i hemp
        exact absurd (List.isEmpty_iff.mp hemp) hfd
      · have hup := (collect_user_inputs_out _ _ _ _ he_col).2 hfd
        have hp2 := (repairInputs_out _ _ _ _ _ he_rep).2 hup
        exact ⟨call_api_ok_lookup_ct _ _ _ _ _ _ _ hup hct he_c1,
               call_api_ok_lookup_ct _ _ _ _ _ _ _ hp2 hct he_c2⟩
    · rename_i x11 rf ct' x10 rh mo' ms he_erf he_erh x9 up s1 he_col x8 hdrs s2 he_hd
        x7 h1 rq1a he_c1 x6 resp1 s3 he_n1 x5 he_chk x4 mi he_cls x3 mf he_it
        x2 p2 s4 he_rep x1 h2 rq2a he_c2 x0 resp2 s5 he_n2
      obtain ⟨hr1, hr2⟩ := hq1
      subst hr1
      subst hr2
      have hinj : (fd, ct, mo) = (rf, ct', some ms) :=
        Except.ok.inj (herf.symm.trans he_erf)
      injection hinj with hA hBC
      injection hBC with hB hC
      subst hA
      subst hB
      split at he_col
      · rename_i hemp
        exact absurd (List.isEmpty_iff.mp hemp) hfd
      · have hup := (collect_user_inputs_out _ _ _ _ he_col).2 hfd
        have hp2 := (repairInputs_out _ _ _ _ _ he_rep).2 hup
        exact ⟨call_api_ok_lookup_ct _ _ _ _ _ _ _ hup hct he_c1,
               call_api_ok_lookup_ct _ _ _ _ _ _ _ hp2 hct he_c2⟩

/-- C10 (witness): the mutation observed on a GET call, and on the two
requests of a concrete repaired login run — the second request still
carries the Content-Type inserted into the shared mapping. -/
theorem C10_witness :
    (call_api "u" (some [((JVal.str "a"), (JVal.str "1"))]) (some [])
        (some (.str "application/json")) "get").1
      = dictUpd [] (.str "Content-Type") ((some (JVal.str "application/json")).getD .null) ∧
    dictLookup c10req1.headersOf (.str "Content-Type")
      = some (JVal.str "application/json") ∧
    dictLookup c10req2.headersOf (.str "Content-Type")
      = some (JVal.str "application/json") := by
  have h1 := (C10_headers_mutated_in_place.1 "u" [((JVal.str "a"), (JVal.str "1"))] []
    (some (.str "application/json")) "get" (by simp) rfl).1
  have h2 := C10_headers_mutated_in_place.2 specLogin streamsLoginRepair .parseSyntaxOrName
    (mainLoginPhase specLogin streamsLoginRepair .parseSyntaxOrName).reqs
    (mainLoginPhase specLogin streamsLoginRepair .parseSyntaxOrName).result
    loginFields (some (.str "application/json")) (some "post") rfl rfl
    (by simp [loginFields]) rfl c10req1 c10req2 rfl
  exact ⟨h1, h2.1, h2.2⟩

/-! ## Claim C9 -/

theorem getItem_ok_hasKey (resp v : JVal)
    (h : getItem resp "access_token" = .ok v) : hasAccessToken resp = true := by
  cases resp with
  | obj kvs =>
    simp only [getItem, getItemV] at h
    cases hf : kvs.find? (fun kv => kv.1 == "access_token") with
    | none => rw [hf] at h; exact Except.noConfusion h
    | some kv =>
      have hp := List.find?_some hf
      simp only [hasAccessToken, List.any_eq_true]
      exact ⟨kv, List.mem_of_find?_eq_some hf, hp⟩
  | null => exact Except.noConfusion h
  | bool b => exact Except.noConfusion h
  | num n => exact Except.noConfusion h
  | str s => exact Except.noConfusion h
  | arr xs => exact Except.noConfusion h

theorem call_api_fst_lookup_other (u : String) (p : Option PyDict) (hd : PyDict)
    (ct : Option JVal) (m : String) (c' : String) (hne : c' ≠ "Content-Type") :
    dictLookup (call_api u p (some hd) ct m).1 (.str c') = dictLookup hd (.str c') := by
  unfold call_api
  simp only [callDispatch_fst, Option.getD]
  split
  · exact dictLookup_dictUpd_ne hd "Content-Type" c' _ (fun hh => hne hh.symm)
  · rfl

theorem authOk_of_lookup (rq : Request) (b : JVal)
    (h : dictLookup rq.headersOf (.str "Authorization")
      = some (.str ("Bearer " ++ pyStr b))) : authOk rq b = true := by
  unfold authOk
  rw [h]
  simp [pyEq]

/-- Every request the job-update stage issues is either the jobs request
itself or carries the bearer Authorization header. -/
theorem jobUpdateStage_auth (spec bearer : JVal) (jobsReq : Request) (jobs_data : JVal)
    (ids : List JVal) (s : Streams) (reqs : List Request) (res : Except PyErr JVal)
    (heq : jobUpdateStage spec bearer jobsReq jobs_data ids s = ⟨reqs, res⟩) :
    ∀ rq ∈ reqs, rq = jobsReq ∨
      dictLookup rq.headersOf (.str "Authorization")
        = some (.str ("Bearer " ++ pyStr bearer)) := by
  unfold jobUpdateStage at heq
  dsimp only [] at heq
  repeat' split at heq
  all_goals
    (injection heq with hq1 hq2
     subst hq1
     subst hq2)
  all_goals intro rq hrq
  all_goals simp only [List.mem_singleton, List.mem_cons, List.not_mem_nil, or_false] at hrq
  all_goals try (exact Or.inl hrq)
  all_goals
    (rcases hrq with hrq | hrq
     · exact Or.inl hrq
     · subst hrq
       rename_i scall heq_call
       refine Or.inr ?_
       have hsnd := congrArg Prod.snd heq_call
       rw [call_api_ok_headers _ _ _ _ _ _ hsnd]
       rw [call_api_fst_lookup_other _ _ _ _ _ "Authorization" (by decide)]
       rfl)

/-- C9: if the login response has no `access_token` field the workflow
issues no further HTTP request at all; and whenever an `access_token` is
present, every request the post-login workflow issues carries its value
as `Authorization: Bearer <token>`. -/
theorem C9_token_gates_workflow :
    ∀ (spec resp : JVal) (s : Streams) (reqs : List Request) (res : Except PyErr JVal),
      mainAfterLogin spec resp s = ⟨reqs, res⟩ →
      (hasAccessToken resp = false → reqs = []) ∧
      (∀ tok, getItem resp "access_token" = .ok tok →
        reqs.all (fun rq => authOk rq tok) = true) := by
  intro spec resp s reqs res heq
  unfold mainAfterLogin at heq
  dsimp only [] at heq
  repeat' split at heq
  all_goals try (injection heq with hq1 hq2; subst hq1; subst hq2)
  all_goals first
    | exact ⟨fun _ => rfl, fun tok htok => rfl⟩
    | skip
  · -- jobs listing request issued, network oracle exhausted
    rename_i xI q1 s0 hInt xC hCont xT tokv hTok xE rf ct mo hErf xN e0 hNet
    have htrue := getItem_ok_hasKey resp tokv hTok
    constructor
    · intro hfalse
      rw [htrue] at hfalse
      exact Bool.noConfusion hfalse
    · intro tok htok
      have heqtok : tokv = tok := Except.ok.inj (hTok.symm.trans htok)
      subst heqtok
      simp only [List.all_cons, List.all_nil, Bool.and_true]
      exact authOk_of_lookup _ tokv rfl
  · -- job-id extraction raised (unreachable in fact, but same request list)
    rename_i xI q1 s0 hInt xC hCont xT tokv hTok xE rf ct mo hErf xN jd sN hNet xJ e0 hIds
    have htrue := getItem_ok_hasKey resp tokv hTok
    constructor
    · intro hfalse
      rw [htrue] at hfalse
      exact Bool.noConfusion hfalse
    · intro tok htok
      have heqtok : tokv = tok := Except.ok.inj (hTok.symm.trans htok)
      subst heqtok
      simp only [List.all_cons, List.all_nil, Bool.and_true]
      exact authOk_of_lookup _ tokv rfl
  · -- job-update stage
    rename_i xI q1 s0 hInt xC hCont xT tokv hTok xE rf ct mo hErf xN jd sN hNet xJ ids hIds
    have htrue := getItem_ok_hasKey resp tokv hTok
    have hstage := jobUpdateStage_auth _ _ _ _ _ _ _ _ heq
    constructor
    · intro hfalse
      rw [htrue] at hfalse
      exact Bool.noConfusion hfalse
    · intro tok htok
      have heqtok : tokv = tok := Except.ok.inj (hTok.symm.trans htok)
      subst heqtok
      simp only [List.all_eq_true]
      intro rq hrq
      rcases hstage rq hrq with hj | hl
      · subst hj
        exact authOk_of_lookup _ tokv rfl
      · exact authOk_of_lookup _ tokv hl

/-- C9 (witness): a token-less login response yields no further requests;
a token-bearing one runs the jobs and update stages with the bearer token
in every Authorization header. -/
theorem C9_witness :
    (mainAfterLogin specLogin (JVal.obj []) streamsAbort).reqs = [] ∧
    ((mainAfterLogin specLogin respWithToken streamsJobsRun).reqs.all
      (fun rq => authOk rq (.str "T"))) = true := by
  have h1 := (C9_token_gates_workflow specLogin (JVal.obj []) streamsAbort
    (mainAfterLogin specLogin (JVal.obj []) streamsAbort).reqs
    (mainAfterLogin specLogin (JVal.obj []) streamsAbort).result rfl).1 rfl
  have h2 := (C9_token_gates_workflow specLogin respWithToken streamsJobsRun
    (mainAfterLogin specLogin respWithToken streamsJobsRun).reqs
    (mainAfterLogin specLogin respWithToken streamsJobsRun).result rfl).2 (.str "T") rfl
  exact ⟨h1, h2⟩

end SmartAPI
